import Mathlib

/-!
Verification of `sprockets-logging` (src/sprockets_logging.py) against its
natural-language specification.

The module-level dict `_context` maps context-key names to per-task
`ContextVar` cells.  From the point of view of a single logical task, the
store is a finite association list from key to that task's current cell
value, kept in key-registration (Python dict insertion) order.  A cell value
is `none` when the `ContextVar` is unset in this task (its default), and
`some s` when the task has set it to the string `s`.
-/

namespace SprocketsLogging

/-- A task-local cell value: `none` = unset (the `ContextVar` default),
`some s` = set to the string `s` in the calling task. -/
abbrev CtxValue := Option String

/-- Python truthiness of a cell value as tested by `if value:` in both
formatters: `None` and the empty string are falsy. -/
def truthy : CtxValue → Bool
  | none => false
  | some s => !s.isEmpty

/-- A single task's view of the Context Store `_context`: keys in
registration order, each with this task's current cell value. -/
abbrev Ctx := List (String × CtxValue)

/-- The registered key names, in registration order. -/
def ctxKeys (st : Ctx) : List String := st.map (fun p => p.1)

/-- Look up the calling task's current cell value for `k` (`none` when the
key is not registered). -/
def lookupCtx (st : Ctx) (k : String) : Option CtxValue :=
  (st.find? (fun p => p.1 == k)).map (fun p => p.2)

/-- `set_context(key, value)` (src/sprockets_logging.py lines 19-25), single
task view: register the key on first use (Python dict insertion appends it),
then set the calling task's cell to `value`. -/
def setContext (st : Ctx) (k : String) (v : String) : Ctx :=
  if (ctxKeys st).contains k then
    st.map (fun p => if p.1 == k then (p.1, some v) else p)
  else
    st ++ [(k, some v)]

/-- A run in which key `k` was never set in the task and never registered:
the store without any entry for `k`. -/
def eraseKey (st : Ctx) (k : String) : Ctx :=
  st.filter (fun p => p.1 != k)

/-- Python `str.join`: `sep.join(parts)`. -/
def strJoin (sep : String) : List String → String
  | [] => ""
  | x :: xs => xs.foldl (fun acc y => acc ++ sep ++ y) x

/-- The `[key value]` tokens collected by the loop in
`_LogFormatter.format` (lines 32-35): one token per registered key whose
value is truthy, in store iteration order. -/
def plainTokens (st : Ctx) : List String :=
  st.filterMap (fun p =>
    if truthy p.2 then some ("[" ++ p.1 ++ " " ++ p.2.getD "" ++ "]") else none)

/-- `_LogFormatter.format` (lines 28-37): `base` is the line produced by
`super().format(record)`; the result is `' '.join(parts)` with
`parts = [base] + tokens`. -/
def formatPlain (base : String) (st : Ctx) : String :=
  strJoin " " (base :: plainTokens st)

/-- Spec-side rendering of §4.2, written from the spec's words: the base
line, followed by the `[key value]` tokens of the keys currently resolving
to a non-empty value (in iteration order), each preceded by a single space;
no tokens means the output is exactly the base line. -/
def specFormatPlain (base : String) (st : Ctx) : String :=
  base ++ String.join
    (((st.filter (fun p => truthy p.2)).map
      (fun p => "[" ++ p.1 ++ " " ++ p.2.getD "" ++ "]")).map
      (fun t => " " ++ t))

/-- The part of a Python `LogRecord` visible to this development.  `context`
is the attribute `_JSONFormatter.format` may attach; a freshly-dispatched
record has no such attribute (`none`). -/
structure Record where
  name : String
  levelname : String
  message : String
  context : Option (List (String × String))
deriving Repr, DecidableEq

/-- The `context` dict built by the loop in `_JSONFormatter.format`
(lines 42-46): every registered key whose value is truthy, mapped to that
value, in store iteration order. -/
def jsonContextOf (st : Ctx) : List (String × String) :=
  st.filterMap (fun p =>
    if truthy p.2 then some (p.1, p.2.getD "") else none)

/-- `_JSONFormatter.format` (lines 40-49) up to the delegation to
`jsonscribe`: attach the context dict to the record only when it is
non-empty (`if context: record.context = context`). -/
def formatJSON (record : Record) (st : Ctx) : Record :=
  let context := jsonContextOf st
  if context.isEmpty then record else { record with context := some context }

/-! ### Configuration builder (`config`, lines 52-151, and `_strtobool`,
lines 154-163) -/

/-- `logging.DEBUG` in the Python standard library. -/
def DEBUG_LEVEL : Nat := 10

/-- `logging.INFO` in the Python standard library. -/
def INFO_LEVEL : Nat := 20

/-- Values occurring in a `logging.config.dictConfig` dictionary. -/
inductive CVal where
  | str : String → CVal
  | nat : Nat → CVal
  | bool : Bool → CVal
  | arr : List CVal → CVal
  | obj : List (String × CVal) → CVal
deriving Repr

/-- Key lookup in an `obj` configuration mapping. -/
def CVal.lookup : CVal → String → Option CVal
  | .obj kvs, k => (kvs.find? (fun p => p.1 == k)).map (fun p => p.2)
  | _, _ => none

/-- The keys of an `obj` configuration mapping, in order. -/
def CVal.keys : CVal → List String
  | .obj kvs => kvs.map (fun p => p.1)
  | _ => []

/-- The `console` handler entry of a configuration dictionary. -/
def consoleOf (c : CVal) : CVal :=
  (((c.lookup "handlers").getD (.obj [])).lookup "console").getD (.obj [])

/-- The whitespace characters Python `str.strip()` removes (the ASCII
ones; the inputs here are environment-variable values). -/
def pyIsSpace (c : Char) : Bool :=
  c == ' ' || c == '\t' || c == '\n' || c == '\r' ||
    c == Char.ofNat 11 || c == Char.ofNat 12

/-- Python `str.strip()`: drop leading and trailing whitespace. -/
def pyStrip (s : String) : String :=
  String.mk (((s.data.dropWhile pyIsSpace).reverse.dropWhile pyIsSpace).reverse)

/-- Python `str.lower()` on one character (ASCII range). -/
def pyLowerChar (c : Char) : Char :=
  if 65 ≤ c.toNat ∧ c.toNat ≤ 90 then Char.ofNat (c.toNat + 32) else c

/-- Python `str.lower()`. -/
def pyLower (s : String) : String :=
  String.mk (s.data.map pyLowerChar)

/-- `_strtobool` (lines 154-163).  `config` always passes a string (an
absent `DEBUG` variable becomes `''`), so Python `if not value` is the
empty-string test.  The `ValueError` message in the source is a plain
string literal (no `f` prefix), so the braces are literal text. -/
def strtobool (value : String) : Except String Bool :=
  if value = "" then .ok false
  else
    let v := pyLower (pyStrip value)
    if v = "0" ∨ v = "n" ∨ v = "no" ∨ v = "false" then .ok false
    else if v = "1" ∨ v = "y" ∨ v = "yes" ∨ v = "true" then .ok true
    else .error "cannot determine bool: \"\x7bvalue\x7d\""

/-- The boolean-parsing policy as worded in §4.4 of the spec:
case-insensitive after trimming; one literal set gives true, one gives
false; an empty or absent variable gives false; any other non-empty string
is a fatal error. -/
def specBoolPolicy (s : String) : Except String Bool :=
  if s = "" then .ok false
  else
    let t := pyLower (pyStrip s)
    if t ∈ ["1", "y", "yes", "true"] then .ok true
    else if t ∈ ["0", "n", "no", "false"] then .ok false
    else .error "cannot determine bool: \"\x7bvalue\x7d\""

/-- The environment variables read by `config`; `none` means unset. -/
structure Env where
  debug : Option String
  log_format : Option String
  environment : Option String

/-- `_JSONSCRIBE_ENVS` (lines 12-16). -/
def JSONSCRIBE_ENVS : List String := ["testing", "staging", "production"]

/-- `os.environ.get('ENVIRONMENT') in _JSONSCRIBE_ENVS` (line 83): an unset
variable reads as `None`, which is a member of no set of strings. -/
def envInJsonscribeEnvs (env : Env) : Bool :=
  match env.environment with
  | some e => JSONSCRIBE_ENVS.contains e
  | none => false

/-- The plain base-line format string built at lines 131-136:
`' '.join(['%(asctime)s', '%(levelname)-8s', '%(name)s', '%(message)s'])`. -/
def plainFormatString : String :=
  strJoin " " ["%(asctime)s", "%(levelname)-8s", "%(name)s", "%(message)s"]

/-- The dictionary returned for `use_jsonscribe=True` (lines 86-122);
`f-string` module references resolve to `sprockets_logging.…`. -/
def jsonscribeConfig (level : Nat) : CVal :=
  .obj [
    ("version", .nat 1),
    ("disable_existing_loggers", .bool false),
    ("incremental", .bool false),
    ("filters", .obj [
      ("defaultsetter", .obj [
        ("()", .str "jsonscribe.AttributeSetter")])]),
    ("formatters", .obj [
      ("jsonlines", .obj [
        ("()", .str "sprockets_logging._JSONFormatter"),
        ("include_fields", .arr [.str "name", .str "levelname",
          .str "asctime", .str "message", .str "context", .str "module",
          .str "exc_info"]),
        ("use_loggly_names", .bool true)])]),
    ("handlers", .obj [
      ("console", .obj [
        ("class", .str "logging.StreamHandler"),
        ("stream", .str "ext://sys.stdout"),
        ("filters", .arr [.str "defaultsetter"]),
        ("formatter", .str "jsonlines")])]),
    ("root", .obj [
      ("level", .nat level),
      ("handlers", .arr [.str "console"])])]

/-- The dictionary returned for `use_jsonscribe=False` (lines 124-151). -/
def plainConfig (level : Nat) : CVal :=
  .obj [
    ("version", .nat 1),
    ("disable_existing_loggers", .bool false),
    ("incremental", .bool false),
    ("formatters", .obj [
      ("file", .obj [
        ("()", .str "sprockets_logging._LogFormatter"),
        ("format", .str plainFormatString)])]),
    ("handlers", .obj [
      ("console", .obj [
        ("class", .str "logging.StreamHandler"),
        ("stream", .str "ext://sys.stdout"),
        ("level", .nat level),
        ("formatter", .str "file")])]),
    ("root", .obj [
      ("level", .nat level),
      ("handlers", .arr [.str "console"])])]

/-- `config(level, use_jsonscribe)` (lines 52-151): resolve the level from
`DEBUG` when omitted and the format from `LOG_FORMAT` (falling back to
`ENVIRONMENT`) when omitted, then build the dictConfig dictionary.  A
raised `ValueError` is `Except.error` with its message. -/
def config (level : Option Nat) (use_jsonscribe : Option Bool) (env : Env) :
    Except String CVal := do
  let level ← match level with
    | none => do
        let debug ← strtobool (env.debug.getD "")
        pure (if debug then DEBUG_LEVEL else INFO_LEVEL)
    | some l => pure l
  let use_jsonscribe ← match use_jsonscribe with
    | none =>
        match env.log_format with
        | some lf =>
            if lf ≠ "" then
              if lf = "plain" then pure false
              else if lf = "json" then pure true
              else Except.error "LOG_FORMAT may be either \"json\" or \"plain\""
            else pure (envInJsonscribeEnvs env)
        | none => pure (envInJsonscribeEnvs env)
    | some b => pure b
  pure (if use_jsonscribe then jsonscribeConfig level else plainConfig level)

/-! ### The `%`-style base-line rendering used by the plain formatter -/

/-- Python `str.ljust`, the effect of a `%-<width>s` conversion:
left-justify in `width` columns, padding with spaces on the right. -/
def ljust (s : String) (w : Nat) : String :=
  s ++ String.mk (List.replicate (w - s.length) ' ')

/-- Numeric value of a digit run in a conversion specifier. -/
def digitsToNat (cs : List Char) : Nat :=
  cs.foldl (fun a c => 10 * a + (c.toNat - 48)) 0

/-- Interpreter for the `%`-style placeholders `logging.Formatter`
substitutes into its format string: `%(field)s` inserts the field's value,
`%(field)-<width>s` inserts it left-justified to `<width>` columns, any
other character is literal.  Returns the rendered chunks in order; `fuel`
bounds the recursion (any `fuel > cs.length` is enough). -/
def pctChunks (fuel : Nat) (cs : List Char) (f : String → String) :
    List String :=
  match fuel, cs with
  | 0, _ => []
  | _ + 1, [] => []
  | fuel + 1, '%' :: '(' :: rest =>
      let name := String.mk (rest.takeWhile (fun c => c != ')'))
      match rest.dropWhile (fun c => c != ')') with
      | ')' :: 's' :: rest2 => f name :: pctChunks fuel rest2 f
      | ')' :: '-' :: spec =>
          match spec.dropWhile Char.isDigit with
          | 's' :: rest2 =>
              ljust (f name) (digitsToNat (spec.takeWhile Char.isDigit))
                :: pctChunks fuel rest2 f
          | _ => []
      | _ => []
  | fuel + 1, c :: rest => String.mk [c] :: pctChunks fuel rest f

/-- The plain base line: the source's format string applied to a record's
fields. -/
def renderBaseLine (f : String → String) : String :=
  String.join (pctChunks (plainFormatString.length + 1) plainFormatString.data f)

/-! ### Interleaving model of `set_context` registration (lines 19-25)

`set_context` is three atomic operations: the test `key not in _context`,
the conditional registration `_context[key] = ContextVar(key, default=None)`
and the write `_context[key].set(value)`.  Two tasks running it for the
same (previously unregistered) key may interleave these operations; a
`ContextVar` allocated by a task is visible only in that task's context. -/

/-- The two logical tasks. -/
inductive Task where
  | A
  | B
deriving DecidableEq, Repr

/-- Shared and per-task state while tasks A and B each run
`set_context(key, v)` for one and the same key.  `registry` is the
`_context` entry for the key, identifying the allocating task of the
`ContextVar` it currently holds.  `storeXY` is task X's context-local value
of the `ContextVar` allocated by task Y (unset initially and by default).
`pcX` is task X's position inside `set_context`; `sawAbsentX` records the
result of its membership test. -/
structure RaceState where
  registry : Option Task
  storeAA : Option String
  storeAB : Option String
  storeBA : Option String
  storeBB : Option String
  pcA : Nat
  sawAbsentA : Bool
  pcB : Nat
  sawAbsentB : Bool
deriving DecidableEq, Repr

/-- Both tasks at the start of `set_context`, nothing registered or set. -/
def initRaceState : RaceState :=
  ⟨none, none, none, none, none, 0, false, 0, false⟩

/-- Task `t`'s context-local read of the cell allocated by `c`
(`ContextVar.get()` with default `None`). -/
def RaceState.readCell (s : RaceState) (t c : Task) : Option String :=
  match t, c with
  | .A, .A => s.storeAA
  | .A, .B => s.storeAB
  | .B, .A => s.storeBA
  | .B, .B => s.storeBB

/-- One atomic step of `set_context(key, v)` by task A: pc 0 runs the
membership test, pc 1 runs the conditional registration, pc 2 re-reads the
registry and performs `ContextVar.set(v)` in task A's context. -/
def raceStepA (v : String) (s : RaceState) : RaceState :=
  match s.pcA with
  | 0 => { s with sawAbsentA := s.registry.isNone, pcA := 1 }
  | 1 =>
      if s.sawAbsentA then { s with registry := some Task.A, pcA := 2 }
      else { s with pcA := 2 }
  | 2 =>
      match s.registry with
      | some Task.A => { s with storeAA := some v, pcA := 3 }
      | some Task.B => { s with storeAB := some v, pcA := 3 }
      | none => { s with pcA := 3 }
  | _ => s

/-- One atomic step of `set_context(key, v)` by task B (same three
operations, acting on task B's program counter and context). -/
def raceStepB (v : String) (s : RaceState) : RaceState :=
  match s.pcB with
  | 0 => { s with sawAbsentB := s.registry.isNone, pcB := 1 }
  | 1 =>
      if s.sawAbsentB then { s with registry := some Task.B, pcB := 2 }
      else { s with pcB := 2 }
  | 2 =>
      match s.registry with
      | some Task.A => { s with storeBA := some v, pcB := 3 }
      | some Task.B => { s with storeBB := some v, pcB := 3 }
      | none => { s with pcB := 3 }
  | _ => s

/-- Run a schedule: at each entry the named task executes its next atomic
step, task A calling `set_context(key, va)` and task B
`set_context(key, vb)`. -/
def raceRun (va vb : String) (sched : List Task) : RaceState :=
  sched.foldl (fun s t =>
    match t with
    | Task.A => raceStepA va s
    | Task.B => raceStepB vb s) initRaceState

/-- What task `t`'s formatters see for the key at render time:
`_context[key].get()` — the registry's current cell, read through task
`t`'s context. -/
def renderValue (s : RaceState) (t : Task) : Option String :=
  match s.registry with
  | some c => s.readCell t c
  | none => none

/-! ### Helper lemmas -/

theorem join_cons (x : String) (xs : List String) :
    String.join (x :: xs) = x ++ String.join xs := by
  apply String.ext
  simp

theorem strJoin_foldl (ts : List String) (b : String) :
    ts.foldl (fun acc y => acc ++ " " ++ y) b
      = b ++ String.join (ts.map (fun t => " " ++ t)) := by
  induction ts generalizing b with
  | nil => simp [String.join]
  | cons t ts ih =>
      simp only [List.foldl_cons, List.map_cons, join_cons, ih]
      simp [String.append_assoc]

theorem strJoin_cons (b : String) (ts : List String) :
    strJoin " " (b :: ts) = b ++ String.join (ts.map (fun t => " " ++ t)) := by
  simp [strJoin, strJoin_foldl]

theorem plainTokens_eq_spec (st : Ctx) :
    plainTokens st
      = (st.filter (fun p => truthy p.2)).map
          (fun p => "[" ++ p.1 ++ " " ++ p.2.getD "" ++ "]") := by
  induction st with
  | nil => rfl
  | cons p st ih =>
      by_cases h : truthy p.2
      · simp [plainTokens, List.filterMap_cons, List.filter_cons, h] at ih ⊢
        exact ih
      · simp [plainTokens, List.filterMap_cons, List.filter_cons, h] at ih ⊢
        exact ih

theorem jsonContextOf_nil_iff (st : Ctx) :
    jsonContextOf st = [] ↔ ∀ p ∈ st, truthy p.2 = false := by
  rw [jsonContextOf, List.filterMap_eq_nil_iff]
  constructor
  · intro h p hp
    have := h p hp
    by_cases ht : truthy p.2
    · simp [ht] at this
    · simpa using ht
  · intro h p hp
    simp [h p hp]

theorem truthy_some_iff (s : String) : truthy (some s) = true ↔ s ≠ "" := by
  rw [truthy, Bool.not_eq_true', Bool.eq_false_iff]
  exact not_congr (String.isEmpty_iff s)

theorem jsonContextOf_mem (st : Ctx) (k v : String) :
    (k, v) ∈ jsonContextOf st ↔ ((k, some v) ∈ st ∧ v ≠ "") := by
  rw [jsonContextOf, List.mem_filterMap]
  constructor
  · rintro ⟨⟨a, b⟩, hmem, hg⟩
    by_cases ht : truthy b = true
    · rw [if_pos ht] at hg
      cases b with
      | none => simp [truthy] at ht
      | some s =>
          have hs : s ≠ "" := (truthy_some_iff s).mp ht
          simp only [Option.getD_some, Option.some.injEq, Prod.mk.injEq] at hg
          obtain ⟨h1, h2⟩ := hg
          subst h1; subst h2
          exact ⟨hmem, hs⟩
    · rw [if_neg ht] at hg
      exact absurd hg (by simp)
  · rintro ⟨hmem, hv⟩
    refine ⟨(k, some v), hmem, ?_⟩
    rw [if_pos ((truthy_some_iff v).mpr hv)]
    rfl

theorem filterMap_setContext_empty {β : Type} (g : String × CtxValue → Option β)
    (hg : ∀ s, g (s, some "") = none) (st : Ctx) (k : String) :
    (setContext st k "").filterMap g = (eraseKey st k).filterMap g := by
  rw [setContext, eraseKey]
  by_cases hc : (ctxKeys st).contains k = true
  · rw [if_pos hc]
    clear hc
    induction st with
    | nil => rfl
    | cons p st ih =>
        by_cases hp : (p.1 == k) = true
        · have hne : (p.1 != k) = false := by simp [bne, hp]
          simp only [List.map_cons, if_pos hp, List.filterMap_cons, hg,
            List.filter_cons, hne]
          simpa using ih
        · have hne : (p.1 != k) = true := by simp [bne]; simpa using hp
          simp only [List.map_cons, if_neg hp, List.filterMap_cons,
            List.filter_cons, hne, if_pos]
          cases hgp : g p with
          | none => simpa [hgp] using ih
          | some b => simp only [hgp]; rw [ih]
  · rw [if_neg hc, List.filterMap_append]
    have h2 : st.filter (fun p => p.1 != k) = st := by
      apply List.filter_eq_self.mpr
      intro p hp
      have hpk : p.1 ≠ k := by
        intro hpk
        apply hc
        have hk : k ∈ ctxKeys st := List.mem_map.mpr ⟨p, hp, hpk⟩
        simpa using hk
      simpa [bne] using hpk
    rw [h2]
    simp [List.filterMap_cons, hg]

theorem find?_cons_true {α : Type} (p : α → Bool) (a : α) (l : List α)
    (h : p a = true) : List.find? p (a :: l) = some a := by
  simp [List.find?_cons, h]

theorem find?_cons_false {α : Type} (p : α → Bool) (a : α) (l : List α)
    (h : p a = false) : List.find? p (a :: l) = List.find? p l := by
  simp [List.find?_cons, h]

theorem ctxKeys_setContext (st : Ctx) (k v : String) :
    ctxKeys (setContext st k v)
      = if k ∈ ctxKeys st then ctxKeys st else ctxKeys st ++ [k] := by
  rw [setContext]
  by_cases hc : (ctxKeys st).contains k = true
  · rw [if_pos hc]
    have hmem : k ∈ ctxKeys st := by simpa using hc
    rw [if_pos hmem]
    unfold ctxKeys
    rw [List.map_map]
    apply List.map_congr_left
    intro p _
    by_cases h : (p.1 == k) = true <;> simp [Function.comp, h]
  · rw [if_neg hc]
    have hmem : k ∉ ctxKeys st := fun h => hc (by simpa using h)
    rw [if_neg hmem]
    unfold ctxKeys
    rw [List.map_append]
    rfl

theorem lookupCtx_setContext_self (st : Ctx) (k v : String) :
    lookupCtx (setContext st k v) k = some (some v) := by
  rw [setContext]
  by_cases hc : (ctxKeys st).contains k = true
  · rw [if_pos hc]
    have hmem : k ∈ ctxKeys st := by simpa using hc
    clear hc
    induction st with
    | nil => simp [ctxKeys] at hmem
    | cons p st ih =>
        rw [List.map_cons]
        by_cases hp : (p.1 == k) = true
        · rw [if_pos hp, lookupCtx,
            find?_cons_true (fun q => q.1 == k) (p.1, some v) _ hp]
          rfl
        · have hmem2 : k = p.1 ∨ k ∈ ctxKeys st := List.mem_cons.mp hmem
          have hmem' : k ∈ ctxKeys st := by
            rcases hmem2 with h | h
            · exact absurd (beq_iff_eq.mpr h.symm) hp
            · exact h
          rw [if_neg hp, lookupCtx,
            find?_cons_false (fun q => q.1 == k) p _ (by simpa using hp)]
          exact ih hmem'
  · rw [if_neg hc]
    have hnone : List.find? (fun p => p.1 == k) st = none := by
      apply List.find?_eq_none.mpr
      intro p hp hbeq
      have hk : k ∈ ctxKeys st := List.mem_map.mpr ⟨p, hp, eq_of_beq hbeq⟩
      exact hc (by simpa using hk)
    rw [lookupCtx, List.find?_append, hnone]
    rw [find?_cons_true (fun q => q.1 == k) (k, some v) _ (by simp)]
    rfl

theorem lookupCtx_setContext_other (st : Ctx) (k v k2 : String)
    (hne : k2 ≠ k) :
    lookupCtx (setContext st k v) k2 = lookupCtx st k2 := by
  rw [setContext]
  by_cases hc : (ctxKeys st).contains k = true
  · rw [if_pos hc]
    clear hc
    induction st with
    | nil => rfl
    | cons p st ih =>
        rw [List.map_cons]
        by_cases hq : (p.1 == k2) = true
        · have hp1 : p.1 = k2 := eq_of_beq hq
          have hpk : (p.1 == k) = false :=
            beq_eq_false_iff_ne.mpr (by rw [hp1]; exact hne)
          rw [if_neg (by simp [hpk]), lookupCtx,
            find?_cons_true (fun q => q.1 == k2) p _ hq, lookupCtx,
            find?_cons_true (fun q => q.1 == k2) p _ hq]
        · by_cases hp : (p.1 == k) = true
          · rw [if_pos hp, lookupCtx,
              find?_cons_false (fun q => q.1 == k2) (p.1, some v) _
                (by simpa using hq),
              lookupCtx, find?_cons_false (fun q => q.1 == k2) p _
                (by simpa using hq)]
            exact ih
          · rw [if_neg hp, lookupCtx,
              find?_cons_false (fun q => q.1 == k2) p _ (by simpa using hq),
              lookupCtx, find?_cons_false (fun q => q.1 == k2) p _
                (by simpa using hq)]
            exact ih
  · rw [if_neg hc]
    have hsingle : List.find? (fun q => q.1 == k2)
        [((k, some v) : String × CtxValue)] = none := by
      rw [find?_cons_false (fun q => q.1 == k2) (k, some v) _
        (beq_eq_false_iff_ne.mpr (fun h => hne h.symm))]
      rfl
    rw [lookupCtx, List.find?_append, hsingle, Option.or_none, lookupCtx]

theorem nodup_setContext (st : Ctx) (k v : String)
    (h : (ctxKeys st).Nodup) : (ctxKeys (setContext st k v)).Nodup := by
  rw [ctxKeys_setContext]
  by_cases hmem : k ∈ ctxKeys st
  · rw [if_pos hmem]; exact h
  · rw [if_neg hmem]
    simp [List.nodup_append, h, hmem]

/-! ### Claims about the formatters -/

/-- C1: For every log record, the plain formatter's output is the base line
followed by one `[key value]` token for each context key whose current value
is non-empty, in Context Store iteration order, tokens joined by a single
space with a single leading space before the first token; when no context
key resolves to a non-empty value the output is exactly the base line with
no trailing space and no empty brackets. -/
theorem plain_formatter_output_C1 (base : String) (st : Ctx) :
    formatPlain base st = specFormatPlain base st ∧
    ((∀ p ∈ st, truthy p.2 = false) → formatPlain base st = base) := by
  constructor
  · rw [formatPlain, strJoin_cons, specFormatPlain, plainTokens_eq_spec]
  · intro h
    have hnil : plainTokens st = [] := by
      rw [plainTokens, List.filterMap_eq_nil_iff]
      intro p hp
      simp [h p hp]
    rw [formatPlain, hnil]
    rfl

theorem plain_formatter_output_C1_witness :
    formatPlain "ts INFO     root hi" [("req", some ""), ("tenant", none)]
      = "ts INFO     root hi" :=
  (plain_formatter_output_C1 "ts INFO     root hi"
    [("req", some ""), ("tenant", none)]).2 (by decide)

/-- C2: The structured formatter attaches a `context` mapping (of every
registered key with a non-empty current value to that value) to the record
if and only if at least one context key currently resolves to a non-empty
value; when no context is active the record's `context` field is
null/absent and is never an empty mapping. -/
theorem json_formatter_context_C2 (r : Record) (st : Ctx)
    (h : r.context = none) :
    ((formatJSON r st).context = none ↔ ∀ p ∈ st, truthy p.2 = false) ∧
    ((∃ p ∈ st, truthy p.2 = true) →
      (formatJSON r st).context = some (jsonContextOf st) ∧
        jsonContextOf st ≠ []) ∧
    (formatJSON r st).context ≠ some [] ∧
    (∀ k v, (k, v) ∈ jsonContextOf st ↔ ((k, some v) ∈ st ∧ v ≠ "")) := by
  by_cases he : (jsonContextOf st).isEmpty = true
  · have he' : jsonContextOf st = [] := List.isEmpty_iff.mp he
    have hctx : (formatJSON r st).context = none := by
      rw [formatJSON]
      simp only [he, if_pos]
      exact h
    refine ⟨?_, ?_, ?_, fun k v => jsonContextOf_mem st k v⟩
    · rw [hctx]
      exact iff_of_true rfl ((jsonContextOf_nil_iff st).mp he')
    · rintro ⟨p, hp, ht⟩
      exact absurd ht (by simp [(jsonContextOf_nil_iff st).mp he' p hp])
    · rw [hctx]
      exact fun hc => Option.noConfusion hc
  · have he' : jsonContextOf st ≠ [] := fun hn => he (by simp [hn])
    have hctx : (formatJSON r st).context = some (jsonContextOf st) := by
      rw [formatJSON]
      simp only [he, if_neg]
      rfl
    refine ⟨?_, ?_, ?_, fun k v => jsonContextOf_mem st k v⟩
    · rw [hctx]
      refine iff_of_false (fun hc => Option.noConfusion hc) ?_
      intro hall
      exact he' ((jsonContextOf_nil_iff st).mpr hall)
    · intro _
      exact ⟨hctx, he'⟩
    · rw [hctx]
      intro hc
      exact he' (Option.some.injEq .. ▸ hc)

theorem json_formatter_context_C2_witness :
    (formatJSON ⟨"root", "INFO", "hi", none⟩ [("req", some "abc")]).context
      = some [("req", "abc")] := by
  have h := (json_formatter_context_C2 ⟨"root", "INFO", "hi", none⟩
    [("req", some "abc")] rfl).2.1 ⟨("req", some "abc"), by simp, by decide⟩
  rw [h.1]
  rfl

/-- C3: For every key, calling `set_context(key, "")` (empty string) in a
task yields output from both formatters identical to a run in which that
key was never set in the task: keys whose current value is unset or the
empty string are omitted entirely from the plain suffix and from the
structured `context` mapping. -/
theorem empty_value_render_C3 (base : String) (st : Ctx) (k : String)
    (r : Record) :
    formatPlain base (setContext st k "") = formatPlain base (eraseKey st k) ∧
    jsonContextOf (setContext st k "") = jsonContextOf (eraseKey st k) ∧
    formatJSON r (setContext st k "") = formatJSON r (eraseKey st k) := by
  have hplain : plainTokens (setContext st k "") = plainTokens (eraseKey st k) := by
    unfold plainTokens
    exact filterMap_setContext_empty _ (fun s => by simp [truthy, String.isEmpty]) st k
  have hjson : jsonContextOf (setContext st k "") = jsonContextOf (eraseKey st k) := by
    unfold jsonContextOf
    exact filterMap_setContext_empty _ (fun s => by simp [truthy, String.isEmpty]) st k
  refine ⟨?_, hjson, ?_⟩
  · rw [formatPlain, hplain, formatPlain]
  · unfold formatJSON
    rw [hjson]

/-! ### Claims about the configuration builder -/

/-- C4: When the format argument is omitted, `build_config` selects plain
for `LOG_FORMAT="plain"` and structured for `LOG_FORMAT="json"` regardless
of `ENVIRONMENT`; for any other non-empty `LOG_FORMAT` value it raises a
fatal configuration error at call time; and when `LOG_FORMAT` is unset or
empty it selects structured exactly when `ENVIRONMENT` is one of
{testing, staging, production}, else plain. -/
theorem format_selection_C4 (l : Nat) (env : Env) :
    (env.log_format = some "plain" →
      config (some l) none env = Except.ok (plainConfig l)) ∧
    (env.log_format = some "json" →
      config (some l) none env = Except.ok (jsonscribeConfig l)) ∧
    (∀ s, env.log_format = some s → s ≠ "" → s ≠ "plain" → s ≠ "json" →
      config (some l) none env
        = Except.error "LOG_FORMAT may be either \"json\" or \"plain\"") ∧
    ((env.log_format = none ∨ env.log_format = some "") →
      config (some l) none env
        = Except.ok (if envInJsonscribeEnvs env then jsonscribeConfig l
            else plainConfig l)) ∧
    (envInJsonscribeEnvs env = true ↔
      (env.environment = some "testing" ∨ env.environment = some "staging" ∨
        env.environment = some "production")) := by
  obtain ⟨d, lf, e⟩ := env
  refine ⟨?_, ?_, ?_, ?_, ?_⟩
  · intro h
    dsimp only at h
    subst h
    rfl
  · intro h
    dsimp only at h
    subst h
    rfl
  · intro s h h1 h2 h3
    dsimp only at h
    subst h
    simp [config, h1, h2, h3]
  · rintro (h | h) <;> dsimp only at h <;> subst h <;> rfl
  · cases e with
    | none => simp [envInJsonscribeEnvs]
    | some x =>
        simp [envInJsonscribeEnvs, JSONSCRIBE_ENVS]

theorem format_selection_C4_witness :
    config (some 20) none ⟨none, some "plain", some "production"⟩
      = Except.ok (plainConfig 20) :=
  (format_selection_C4 20 ⟨none, some "plain", some "production"⟩).1 rfl

/-- C5: When the level argument is omitted, `build_config` parses the
`DEBUG` environment variable with the boolean policy — case-insensitive
after trimming, {"1","y","yes","true"} gives true, {"0","n","no","false"}
gives false, empty or absent gives false, any other non-empty string raises
a fatal error — and sets level to DEBUG exactly when the parse yields true,
otherwise INFO. -/
theorem level_selection_C5 (b : Bool) (env : Env) :
    (∀ s, strtobool s = specBoolPolicy s) ∧
    (∀ d, strtobool (env.debug.getD "") = Except.ok d →
      config none (some b) env
        = Except.ok (if b
            then jsonscribeConfig (if d then DEBUG_LEVEL else INFO_LEVEL)
            else plainConfig (if d then DEBUG_LEVEL else INFO_LEVEL))) ∧
    (∀ msg, strtobool (env.debug.getD "") = Except.error msg →
      config none (some b) env = Except.error msg) := by
  refine ⟨?_, ?_, ?_⟩
  · intro s
    simp only [strtobool, specBoolPolicy, List.mem_cons, List.not_mem_nil,
      or_false]
    by_cases h0 : s = ""
    · simp only [if_pos h0]
    · simp only [if_neg h0]
      by_cases hf : pyLower (pyStrip s) = "0" ∨ pyLower (pyStrip s) = "n" ∨
          pyLower (pyStrip s) = "no" ∨ pyLower (pyStrip s) = "false"
      · have ht : ¬(pyLower (pyStrip s) = "1" ∨ pyLower (pyStrip s) = "y" ∨
            pyLower (pyStrip s) = "yes" ∨ pyLower (pyStrip s) = "true") := by
          intro habs
          rcases hf with g | g | g | g <;> rcases habs with h | h | h | h <;>
            rw [g] at h <;> exact absurd h (by decide)
        simp only [if_pos hf, if_neg ht]
      · by_cases ht : pyLower (pyStrip s) = "1" ∨ pyLower (pyStrip s) = "y" ∨
            pyLower (pyStrip s) = "yes" ∨ pyLower (pyStrip s) = "true"
        · simp only [if_neg hf, if_pos ht]
        · simp only [if_neg hf, if_neg ht]
  · intro d hd
    simp only [config]
    rw [hd]
    rfl
  · intro msg hd
    simp only [config]
    rw [hd]
    rfl

theorem level_selection_C5_witness :
    config none (some false) ⟨some "yes", none, none⟩
      = Except.ok (plainConfig DEBUG_LEVEL) :=
  (level_selection_C5 false ⟨some "yes", none, none⟩).2.1 true rfl

/-- C6: For every resolved level and format choice, `build_config` returns
a mapping with top-level keys version, disable_existing_loggers,
incremental, formatters, handlers, root, and a filters key present exactly
in structured mode; root always carries the level and handlers
`["console"]`; the console handler always streams to standard output; in
plain mode the console handler additionally carries its own level, while in
structured mode it carries a filters reference (and no level) and
level-filtering appears only at root. -/
theorem config_shape_C6 (l : Nat) (structured : Bool) (env : Env) :
    config (some l) (some structured) env
      = Except.ok (if structured then jsonscribeConfig l else plainConfig l) ∧
    (if structured then jsonscribeConfig l else plainConfig l).keys
      = (if structured
          then ["version", "disable_existing_loggers", "incremental",
            "filters", "formatters", "handlers", "root"]
          else ["version", "disable_existing_loggers", "incremental",
            "formatters", "handlers", "root"]) ∧
    (if structured then jsonscribeConfig l else plainConfig l).lookup "root"
      = some (.obj [("level", .nat l),
          ("handlers", .arr [.str "console"])]) ∧
    (consoleOf (if structured then jsonscribeConfig l
        else plainConfig l)).lookup "stream"
      = some (.str "ext://sys.stdout") ∧
    (structured = true →
      (consoleOf (jsonscribeConfig l)).lookup "filters"
          = some (.arr [.str "defaultsetter"]) ∧
        (consoleOf (jsonscribeConfig l)).lookup "level" = none) ∧
    (structured = false →
      (consoleOf (plainConfig l)).lookup "level" = some (.nat l) ∧
        (consoleOf (plainConfig l)).lookup "filters" = none) := by
  cases structured
  · exact ⟨rfl, rfl, rfl, rfl, fun h => absurd h (by decide),
      fun _ => ⟨rfl, rfl⟩⟩
  · exact ⟨rfl, rfl, rfl, rfl, fun _ => ⟨rfl, rfl⟩,
      fun h => absurd h (by decide)⟩

theorem config_shape_C6_witness :
    (consoleOf (jsonscribeConfig 20)).lookup "level" = none :=
  ((config_shape_C6 20 true ⟨none, none, none⟩).2.2.2.2.1 rfl).2

/-- C7: In the plain formatter's base line, the level name is rendered
left-padded to 8 columns, within the fixed field order timestamp, level,
logger name, message separated by single spaces.  (The second conjunct ties
the interpreted format string to the one the configuration actually wires
into the plain formatter.) -/
theorem base_line_format_C7 (l : Nat) (asctime levelname nm message : String) :
    renderBaseLine (fun fld =>
      if fld = "asctime" then asctime
      else if fld = "levelname" then levelname
      else if fld = "name" then nm
      else message)
      = asctime ++ " " ++ ljust levelname 8 ++ " " ++ nm ++ " " ++ message ∧
    (((plainConfig l).lookup "formatters").getD (.obj [])).lookup "file"
      = some (.obj [("()", .str "sprockets_logging._LogFormatter"),
          ("format", .str plainFormatString)]) :=
  ⟨rfl, rfl⟩

/-- C10: For every input string that is non-empty after trimming and,
lowercased, belongs to neither {"1","y","yes","true"} nor
{"0","n","no","false"}, the boolean parser raises a ValueError whose
message is the identical literal text `cannot determine bool: "{value}"`
for all such inputs — the rejected value itself is never interpolated into
the message (the source string literal has no `f` prefix). -/
theorem strtobool_error_message_C10 (s : String)
    (h1 : pyStrip s ≠ "")
    (h2 : pyLower (pyStrip s) ∉ (["1", "y", "yes", "true"] : List String))
    (h3 : pyLower (pyStrip s) ∉ (["0", "n", "no", "false"] : List String)) :
    strtobool s = Except.error "cannot determine bool: \"\x7bvalue\x7d\"" := by
  have hs : s ≠ "" := by
    intro he
    apply h1
    rw [he]
    rfl
  simp only [List.mem_cons, List.not_mem_nil, or_false] at h2 h3
  simp only [strtobool, if_neg hs]
  rw [if_neg h3, if_neg h2]

theorem strtobool_error_message_C10_witness :
    strtobool "pretty"
      = Except.error "cannot determine bool: \"\x7bvalue\x7d\"" :=
  strtobool_error_message_C10 "pretty" (by decide) (by decide) (by decide)

/-! ### Claims about the Context Store -/

/-- C8: Each context key has exactly one entry in the Context Store:
re-setting an already-registered key via `set_context` overwrites only that
key's task-local value and introduces no duplicate entry, and iteration
order over keys for rendering is deterministic per process, following key
registration order, so repeated renders with the same active context are
byte-for-byte identical (rendering is a pure function of the store, whose
key order the first conjuncts pin down). -/
theorem set_context_registry_C8 (st : Ctx) (k v : String)
    (h : (ctxKeys st).Nodup) :
    (ctxKeys (setContext st k v)).Nodup ∧
    ctxKeys (setContext st k v)
      = (if k ∈ ctxKeys st then ctxKeys st else ctxKeys st ++ [k]) ∧
    lookupCtx (setContext st k v) k = some (some v) ∧
    (∀ k2, k2 ≠ k → lookupCtx (setContext st k v) k2 = lookupCtx st k2) :=
  ⟨nodup_setContext st k v h, ctxKeys_setContext st k v,
    lookupCtx_setContext_self st k v,
    fun k2 hne => lookupCtx_setContext_other st k v k2 hne⟩

theorem set_context_registry_C8_witness :
    ctxKeys (setContext [("a", some "1"), ("b", some "2")] "a" "3") = ["a", "b"] ∧
    lookupCtx (setContext [("a", some "1"), ("b", some "2")] "a" "3") "a"
      = some (some "3") ∧
    lookupCtx (setContext [("a", some "1"), ("b", some "2")] "a" "3") "b"
      = some (some "2") := by
  have h := set_context_registry_C8 [("a", some "1"), ("b", some "2")] "a" "3"
    (by decide)
  refine ⟨h.2.1.trans (by decide), h.2.2.1, (h.2.2.2 "b" (by decide)).trans rfl⟩

/-- C9: the claim asserts that concurrent first-time `set_context` calls
for the same key from two tasks lose neither task's value.  The code has a
check-then-act race: the membership test, the registration
`_context[key] = ContextVar(...)` and the `.set(value)` are separate
operations.  First conjunct: under the sequential schedule both tasks
render their own value (the claim's happy path, showing the model is not
vacuous).  Remaining conjuncts: under the interleaving A-test, B-test,
B-register, B-set, A-register, A-set both calls run to completion
(program counters 3), task A still renders its own value, but task B —
whose `ContextVar` was evicted from the registry after it stored its
value — renders nothing: its value is lost, contradicting the claim. -/
theorem set_context_race_C9 :
    (renderValue (raceRun "alpha" "beta"
        [Task.A, Task.A, Task.A, Task.B, Task.B, Task.B]) Task.A
        = some "alpha" ∧
      renderValue (raceRun "alpha" "beta"
        [Task.A, Task.A, Task.A, Task.B, Task.B, Task.B]) Task.B
        = some "beta") ∧
    (raceRun "alpha" "beta"
      [Task.A, Task.B, Task.B, Task.B, Task.A, Task.A]).pcA = 3 ∧
    (raceRun "alpha" "beta"
      [Task.A, Task.B, Task.B, Task.B, Task.A, Task.A]).pcB = 3 ∧
    renderValue (raceRun "alpha" "beta"
      [Task.A, Task.B, Task.B, Task.B, Task.A, Task.A]) Task.A
      = some "alpha" ∧
    renderValue (raceRun "alpha" "beta"
      [Task.A, Task.B, Task.B, Task.B, Task.A, Task.A]) Task.B
      = none := by
  decide

end SprocketsLogging
